import Mathlib

/-!
# Verification of the BEB email generator's core composition logic

Shallow embedding of the calendar / schedule / email composition code
(`src/js/app.js` class `CalendarManager`, `src/js/email.js` class
`EmailManager`, time syntax from `src/js/validation.js`), together with
theorems settling the specified properties.

JS `Date` values (as used by the code: local midnight, day granularity) are
modelled as civil Gregorian dates `⟨year, month, day⟩`; `Date#setDate`
arithmetic is day-stepping on civil dates, `Date#getDay` is the weekday
derived from the days-since-epoch count (1970-01-01 = Thursday), and the
code's millisecond subtraction `(d − yearStart) / 86400000 + 1` is the
day-of-year of `d`.
-/

namespace BEB

/-- Gregorian leap-year rule (the rule implemented by the JS `Date` engine). -/
def isLeapYear (y : ℤ) : Bool :=
  (y % 4 == 0 && y % 100 != 0) || y % 400 == 0

/-- A civil calendar date: the value of a JS `Date` at local midnight. -/
structure Date where
  year : ℤ
  month : ℕ
  day : ℕ
deriving DecidableEq

/-- Length of month `m` (1..12) of year `y`. -/
def daysInMonth (y : ℤ) (m : ℕ) : ℕ :=
  match m with
  | 1 => 31
  | 2 => if isLeapYear y then 29 else 28
  | 3 => 31
  | 4 => 30
  | 5 => 31
  | 6 => 30
  | 7 => 31
  | 8 => 31
  | 9 => 30
  | 10 => 31
  | 11 => 30
  | 12 => 31
  | _ => 0

/-- A structurally well-formed calendar date. -/
def Date.Valid (dt : Date) : Prop :=
  1 ≤ dt.month ∧ dt.month ≤ 12 ∧ 1 ≤ dt.day ∧ dt.day ≤ daysInMonth dt.year dt.month

instance : DecidablePred Date.Valid := by
  intro dt
  unfold Date.Valid
  infer_instance

/-- The calendar day after `dt` (JS `d.setDate(d.getDate() + 1)`). -/
def nextDay (dt : Date) : Date :=
  if dt.day < daysInMonth dt.year dt.month then ⟨dt.year, dt.month, dt.day + 1⟩
  else if dt.month < 12 then ⟨dt.year, dt.month + 1, 1⟩
  else ⟨dt.year + 1, 1, 1⟩

/-- The calendar day before `dt` (JS `d.setDate(d.getDate() - 1)`). -/
def prevDay (dt : Date) : Date :=
  if 1 < dt.day then ⟨dt.year, dt.month, dt.day - 1⟩
  else if 1 < dt.month then ⟨dt.year, dt.month - 1, daysInMonth dt.year (dt.month - 1)⟩
  else ⟨dt.year - 1, 12, 31⟩

/-- Shift a date by `k` calendar days (JS `d.setDate(d.getDate() + k)`). -/
def shiftDays (dt : Date) (k : ℤ) : Date :=
  if 0 ≤ k then nextDay^[k.toNat] dt else prevDay^[(-k).toNat] dt

/-- Days since the JS epoch 1970-01-01 of a civil date (Howard Hinnant's
`days_from_civil`; Lean's `Int` division by a positive literal is floor
division, as the algorithm requires). -/
def daysFromCivil (dt : Date) : ℤ :=
  let y : ℤ := if dt.month ≤ 2 then dt.year - 1 else dt.year
  let m : ℤ := (dt.month : ℤ)
  let d : ℤ := (dt.day : ℤ)
  let era : ℤ := y / 400
  let yoe : ℤ := y - era * 400
  let doy : ℤ := (153 * (if dt.month ≤ 2 then m + 9 else m - 3) + 2) / 5 + d - 1
  let doe : ℤ := yoe * 365 + yoe / 4 - yoe / 100 + doy
  era * 146097 + doe - 719468

/-- JS `Date#getDay`: 0 = Sunday .. 6 = Saturday.  Day 0 of the epoch
(1970-01-01) was a Thursday, hence the offset 4. -/
def jsDay (dt : Date) : ℤ :=
  (daysFromCivil dt + 4) % 7

/-- Days of the year preceding month `m` in a non-leap year. -/
def monthOffset (m : ℕ) : ℕ :=
  match m with
  | 1 => 0
  | 2 => 31
  | 3 => 59
  | 4 => 90
  | 5 => 120
  | 6 => 151
  | 7 => 181
  | 8 => 212
  | 9 => 243
  | 10 => 273
  | 11 => 304
  | 12 => 334
  | _ => 0

/-- Day-of-year (1..365/366) of a date: the value the code obtains as
`(d − yearStart) / 86400000 + 1` (millisecond difference to January 1 of
the date's own year, in whole days, plus one). -/
def dayOfYear (dt : Date) : ℕ :=
  monthOffset dt.month + (if isLeapYear dt.year ∧ 3 ≤ dt.month then 1 else 0) + dt.day

/--
`CalendarManager.getCalendarWeek` (src/js/app.js):
```
const d = new Date(date); d.setHours(0,0,0,0);
d.setDate(d.getDate() + 4 - (d.getDay() || 7));
const yearStart = new Date(d.getFullYear(), 0, 1);
return Math.ceil((((d - yearStart) / 86400000) + 1) / 7);
```
`Math.ceil(n / 7)` for the positive integer `n = dayOfYear` is `(n + 6) / 7`
in natural-number division. -/
def getCalendarWeek (dt : Date) : ℕ :=
  let dow : ℤ := jsDay dt
  let isoDow : ℤ := if dow = 0 then 7 else dow
  let t : Date := shiftDays dt (4 - isoDow)
  (dayOfYear t + 6) / 7

instance : Inhabited Date := ⟨⟨1970, 1, 1⟩⟩

/--
`CalendarManager.getWeekDates` (src/js/app.js):
```
const today = new Date();
const currentDay = today.getDay();
const monday = new Date(today);
const daysToMonday = currentDay === 0 ? -6 : 1 - currentDay;
monday.setDate(today.getDate() + daysToMonday);
if (weekType === 'next') { monday.setDate(monday.getDate() + 7); }
const weekDates = [];
for (let i = 0; i < 5; i++) { const date = new Date(monday);
  date.setDate(monday.getDate() + i); weekDates.push(date); }
return weekDates;
```
The implicit `new Date()` reference instant is injected as `today` so that the
computation is a function of its inputs (spec §9). -/
def weekMonday (today : Date) (weekType : String) : Date :=
  let currentDay : ℤ := jsDay today
  let daysToMonday : ℤ := if currentDay = 0 then -6 else 1 - currentDay
  let monday0 : Date := shiftDays today daysToMonday
  if weekType = "next" then shiftDays monday0 7 else monday0

/-- The `for (let i = 0; i < 5; i++)` loop of `getWeekDates`. -/
def getWeekDates (today : Date) (weekType : String) : List Date :=
  (List.range 5).map fun i => shiftDays (weekMonday today weekType) (i : ℤ)

/-- Full German month names, as produced by
`toLocaleDateString('de-DE', { month: 'long' })`. -/
def germanMonthName (m : ℕ) : String :=
  match m with
  | 1 => "Januar"
  | 2 => "Februar"
  | 3 => "März"
  | 4 => "April"
  | 5 => "Mai"
  | 6 => "Juni"
  | 7 => "Juli"
  | 8 => "August"
  | 9 => "September"
  | 10 => "Oktober"
  | 11 => "November"
  | 12 => "Dezember"
  | _ => ""

/-- `CalendarManager.formatDate`:
`date.toLocaleDateString('de-DE', {year:'numeric', month:'long', day:'numeric'})`,
i.e. the fixed long form "{day}. {month name} {year}". -/
def formatDate (dt : Date) : String :=
  toString dt.day ++ ". " ++ germanMonthName dt.month ++ " " ++ toString dt.year

/-- Result shape of `CalendarManager.getWeekInfo`. -/
structure WeekInfo where
  week : ℕ
  year : ℤ
  formatted : String
deriving DecidableEq

/-- `CalendarManager.getWeekInfo`: `{ week, year, formatted: ` KW ${week}/${year}` }`. -/
def getWeekInfo (dt : Date) : WeekInfo :=
  { week := getCalendarWeek dt
    year := dt.year
    formatted := "KW " ++ toString (getCalendarWeek dt) ++ "/" ++ toString dt.year }

/-- `CalendarManager.dayNames`. -/
def dayNames : List String := ["Montag", "Dienstag", "Mittwoch", "Donnerstag", "Freitag"]

/-- `CalendarManager.dayIds`. -/
def dayIds : List String := ["monday", "tuesday", "wednesday", "thursday", "friday"]

/-- The per-weekday selection/time fields read by
`CalendarManager.generatePickupList` (`selectedDays[dayId]` and
`selectedDays[dayId + 'Time']`). -/
structure PickupSelection where
  monday : Bool
  tuesday : Bool
  wednesday : Bool
  thursday : Bool
  friday : Bool
  mondayTime : String
  tuesdayTime : String
  wednesdayTime : String
  thursdayTime : String
  fridayTime : String
deriving DecidableEq

/-- `selectedDays[dayIds[i]]`. -/
def daySelected (sel : PickupSelection) (i : ℕ) : Bool :=
  match i with
  | 0 => sel.monday
  | 1 => sel.tuesday
  | 2 => sel.wednesday
  | 3 => sel.thursday
  | 4 => sel.friday
  | _ => false

/-- `selectedDays[dayIds[i] + 'Time']` (absent fields read as the empty string,
matching the JS `undefined` falsiness used by the qualification test). -/
def dayTime (sel : PickupSelection) (i : ℕ) : String :=
  match i with
  | 0 => sel.mondayTime
  | 1 => sel.tuesdayTime
  | 2 => sel.wednesdayTime
  | 3 => sel.thursdayTime
  | 4 => sel.fridayTime
  | _ => ""

/-- The line pushed for weekday `i`:
`` `• ${this.dayNames[index]}, ${formattedDate} um ${timeString} Uhr` ``. -/
def pickupLine (sel : PickupSelection) (weekDates : List Date) (i : ℕ) : String :=
  "• " ++ dayNames.getD i "" ++ ", " ++ formatDate (weekDates.getD i default) ++
    " um " ++ dayTime sel i ++ " Uhr"

/--
`CalendarManager.generatePickupList` (src/js/app.js):
```
const weekDates = this.getWeekDates(weekType);
const pickupList = [];
this.dayIds.forEach((dayId, index) => {
  if (selectedDays[dayId] && selectedDays[dayId + 'Time']) {
    ... pickupList.push(`• ...`); } });
return pickupList;
```
JS truthiness of the two reads: the checkbox flag must be `true` and the time
string non-empty (no further syntax check is performed). -/
def generatePickupList (today : Date) (weekType : String) (sel : PickupSelection) :
    List String :=
  let weekDates := getWeekDates today weekType
  (List.range 5).filterMap fun i =>
    if daySelected sel i = true ∧ dayTime sel i ≠ "" then
      some (pickupLine sel weekDates i)
    else none

/-- `ValidationManager.patterns.time` (src/js/validation.js):
`/^([0-1]?[0-9]|2[0-3]):[0-5][0-9]$/`. -/
def validTime (s : String) : Bool :=
  match s.data with
  | [a, ':', c, d] =>
      decide ('0' ≤ a ∧ a ≤ '9') && decide ('0' ≤ c ∧ c ≤ '5') &&
        decide ('0' ≤ d ∧ d ≤ '9')
  | [a, b, ':', c, d] =>
      (decide ('0' ≤ a ∧ a ≤ '1') && decide ('0' ≤ b ∧ b ≤ '9') ||
        decide (a = '2') && decide ('0' ≤ b ∧ b ≤ '3')) &&
        decide ('0' ≤ c ∧ c ≤ '5') && decide ('0' ≤ d ∧ d ≤ '9')
  | _ => false

/-- The characters `encodeURIComponent` leaves unescaped:
`A-Z a-z 0-9 - _ . ! ~ * ' ( )` (given by their ASCII codes). -/
def isUnreserved (c : Char) : Bool :=
  decide ((65 ≤ c.toNat ∧ c.toNat ≤ 90) ∨ (97 ≤ c.toNat ∧ c.toNat ≤ 122) ∨
    (48 ≤ c.toNat ∧ c.toNat ≤ 57) ∨ c.toNat = 45 ∨ c.toNat = 95 ∨ c.toNat = 46 ∨
    c.toNat = 33 ∨ c.toNat = 126 ∨ c.toNat = 42 ∨ c.toNat = 39 ∨ c.toNat = 40 ∨
    c.toNat = 41)

/-- UTF-8 byte sequence of a Unicode code point. -/
def utf8Bytes (n : ℕ) : List ℕ :=
  if n < 128 then [n]
  else if n < 2048 then [192 + n / 64, 128 + n % 64]
  else if n < 65536 then [224 + n / 4096, 128 + (n / 64) % 64, 128 + n % 64]
  else [240 + n / 262144, 128 + (n / 4096) % 64, 128 + (n / 64) % 64, 128 + n % 64]

/-- Uppercase hexadecimal digit, as emitted by `encodeURIComponent`. -/
def hexDigit (n : ℕ) : Char :=
  match n with
  | 0 => '0'
  | 1 => '1'
  | 2 => '2'
  | 3 => '3'
  | 4 => '4'
  | 5 => '5'
  | 6 => '6'
  | 7 => '7'
  | 8 => '8'
  | 9 => '9'
  | 10 => 'A'
  | 11 => 'B'
  | 12 => 'C'
  | 13 => 'D'
  | 14 => 'E'
  | 15 => 'F'
  | _ => '0'

/-- `%XX` escape of one byte. -/
def percentByte (b : ℕ) : List Char := ['%', hexDigit (b / 16), hexDigit (b % 16)]

/-- Encoding of a single character: unreserved characters pass through,
everything else becomes the `%XX` escapes of its UTF-8 bytes. -/
def encChar (c : Char) : List Char :=
  if isUnreserved c then [c] else ((utf8Bytes c.toNat).map percentByte).flatten

/-- JS `encodeURIComponent`. -/
def encodeURIComponent (s : String) : String :=
  ⟨(s.data.map encChar).flatten⟩

/-- Value of an ASCII hexadecimal digit. -/
def hexVal (c : Char) : Option ℕ :=
  if '0' ≤ c ∧ c ≤ '9' then some (c.toNat - 48)
  else if 'A' ≤ c ∧ c ≤ 'F' then some (c.toNat - 65 + 10)
  else if 'a' ≤ c ∧ c ≤ 'f' then some (c.toNat - 97 + 10)
  else none

/-- Percent-decoding, byte layer: a `%XX` escape yields the byte `XX`, a plain
character yields its UTF-8 bytes. -/
def percentDecodeBytes : List Char → Option (List ℕ)
  | [] => some []
  | c :: rest =>
      if c = '%' then
        match rest with
        | h1 :: h2 :: rest2 =>
            match hexVal h1, hexVal h2 with
            | some a, some b => (percentDecodeBytes rest2).map fun l => (a * 16 + b) :: l
            | _, _ => none
        | _ => none
      else (percentDecodeBytes rest).map fun l => utf8Bytes c.toNat ++ l

/-- Read one UTF-8 continuation byte (delivering its 6 payload bits and the
remaining bytes, with a length certificate for termination). -/
def utf8Cont (bs : List ℕ) : Option (ℕ × {r : List ℕ // r.length < bs.length}) :=
  match bs with
  | b :: rest =>
      if 128 ≤ b ∧ b < 192 then some (b - 128, ⟨rest, by simp⟩) else none
  | [] => none

/-- UTF-8 decoding of a byte sequence. -/
def utf8Decode (bs : List ℕ) : Option (List Char) :=
  match bs with
  | [] => some []
  | b1 :: rest =>
      if b1 < 128 then (utf8Decode rest).map fun l => Char.ofNat b1 :: l
      else if b1 < 192 then none
      else if b1 < 224 then
        match utf8Cont rest with
        | some (c2, rest2) =>
            (utf8Decode rest2.val).map fun l =>
              Char.ofNat ((b1 - 192) * 64 + c2) :: l
        | none => none
      else if b1 < 240 then
        match utf8Cont rest with
        | some (c2, rest2) =>
            match utf8Cont rest2.val with
            | some (c3, rest3) =>
                (utf8Decode rest3.val).map fun l =>
                  Char.ofNat ((b1 - 224) * 4096 + c2 * 64 + c3) :: l
            | none => none
        | none => none
      else if b1 < 248 then
        match utf8Cont rest with
        | some (c2, rest2) =>
            match utf8Cont rest2.val with
            | some (c3, rest3) =>
                match utf8Cont rest3.val with
                | some (c4, rest4) =>
                    (utf8Decode rest4.val).map fun l =>
                      Char.ofNat ((b1 - 240) * 262144 + c2 * 4096 + c3 * 64 + c4) :: l
                | none => none
            | none => none
        | none => none
      else none
termination_by bs.length
decreasing_by
  · simp
  · simp only [List.length_cons]
    omega
  · simp only [List.length_cons]
    omega
  · simp only [List.length_cons]
    omega

/-- Standard percent-decoding (JS `decodeURIComponent`): decode `%XX` escapes
to bytes, then UTF-8-decode the byte sequence. -/
def decodeURIComponent (s : String) : Option String :=
  match percentDecodeBytes s.data with
  | some bytes =>
      match utf8Decode bytes with
      | some chars => some ⟨chars⟩
      | none => none
  | none => none

/-- The form fields read by `EmailManager` (missing optional fields are the
empty string, matching JS falsiness). -/
structure FormData where
  parentName : String
  parentEmail : String
  childNames : String
  childClass : String
  bebLocation : String
  notes : String
deriving DecidableEq

/-- `EmailManager.createSubject`:
`` `Abholzeiten für ${childNames} - ${weekInfo.formatted}` ``. -/
def createSubject (childNames : String) (weekInfo : WeekInfo) : String :=
  "Abholzeiten für " ++ childNames ++ " - " ++ weekInfo.formatted

/-- `EmailManager.createEmailBody` (src/js/email.js, lines 91-114). -/
def createEmailBody (formData : FormData) (weekInfo : WeekInfo)
    (pickupList : List String) : String :=
  let childInfo := formData.childNames ++
    (if formData.childClass ≠ "" then " (Klasse: " ++ formData.childClass ++ ")" else "")
  "Hallo,\n\n" ++
    "hiermit teile ich Ihnen die Abholzeiten für " ++ childInfo ++ " für " ++
    weekInfo.formatted ++ " mit:\n\n" ++
    String.intercalate "\n" pickupList ++ "\n\n" ++
    (if formData.notes ≠ "" then "Zusätzliche Notizen:\n" ++ formData.notes ++ "\n\n"
      else "") ++
    "Vielen Dank!\n\n" ++
    "Mit freundlichen Grüßen\n" ++
    formData.parentName

/-- `EmailManager.createMailtoLink`:
```
const ccText = ccEmail ? `&cc=${encodeURIComponent(ccEmail)}` : '';
return `mailto:${recipient}?subject=${encodeURIComponent(subject)}&body=${encodeURIComponent(body)}${ccText}`;
```
Note that the recipient is interpolated without encoding. -/
def createMailtoLink (recipient subject body ccEmail : String) : String :=
  let ccText := if ccEmail ≠ "" then "&cc=" ++ encodeURIComponent ccEmail else ""
  "mailto:" ++ recipient ++ "?subject=" ++ encodeURIComponent subject ++
    "&body=" ++ encodeURIComponent body ++ ccText

/-- `EmailManager.createDisplayContent` (src/js/email.js, lines 139-148). -/
def createDisplayContent (recipient subject body ccEmail : String) : String :=
  "An: " ++ recipient ++ "\n" ++
    (if ccEmail ≠ "" then "CC: " ++ ccEmail ++ "\n" else "") ++
    "Betreff: " ++ subject ++ "\n\n" ++
    body

/-- The mutable slots of `EmailManager` (`currentEmailContent`,
`currentMailtoLink`). -/
structure EmailState where
  currentEmailContent : String
  currentMailtoLink : String
deriving DecidableEq

/-- The object returned by `EmailManager.generateEmail` (failure returns only
`success` and `error`; the remaining fields are modelled as empty). -/
structure EmailResult where
  success : Bool
  error : String
  subject : String
  body : String
  displayContent : String
  mailtoLink : String
deriving DecidableEq

/-- The message of the error thrown (and caught) when no pickup day qualifies. -/
def noDaysMsg : String := "Bitte wählen Sie mindestens einen Tag für die Abholung aus."

/-- `EmailManager.generateEmail` (src/js/email.js, lines 28-70), with the
`EmailManager` slots threaded explicitly: returns the result object together
with the state of the slots after the call.  The only `throw` in the `try`
block is the empty-pickup-list check; the `catch` turns it into
`{ success: false, error }` before the slots are assigned. -/
def generateEmail (st : EmailState) (today : Date) (formData : FormData)
    (selectedWeek : String) (pickupData : PickupSelection) :
    EmailResult × EmailState :=
  let weekDates := getWeekDates today selectedWeek
  let weekInfo := getWeekInfo (weekDates.getD 0 default)
  let pickupList := generatePickupList today selectedWeek pickupData
  if pickupList = [] then
    ({ success := false, error := noDaysMsg, subject := "", body := "",
       displayContent := "", mailtoLink := "" }, st)
  else
    let subject := createSubject formData.childNames weekInfo
    let body := createEmailBody formData weekInfo pickupList
    let mailtoLink := createMailtoLink formData.bebLocation subject body
      formData.parentEmail
    let displayContent := createDisplayContent formData.bebLocation subject body
      formData.parentEmail
    ({ success := true, error := "", subject := subject, body := body,
       displayContent := displayContent, mailtoLink := mailtoLink },
     { currentEmailContent := displayContent, currentMailtoLink := mailtoLink })

/-- `EmailManager.getCurrentEmailContent`. -/
def getCurrentEmailContent (st : EmailState) : String := st.currentEmailContent

/-- `EmailManager.getCurrentMailtoLink`. -/
def getCurrentMailtoLink (st : EmailState) : String := st.currentMailtoLink

/-- `EmailManager.clearCurrentEmail`. -/
def clearCurrentEmail (_st : EmailState) : EmailState :=
  { currentEmailContent := "", currentMailtoLink := "" }

/-- `l` occurs as a contiguous substring of `s`. -/
def containsStr (l s : String) : Prop := ∃ u v : String, s = u ++ l ++ v

/-- `CalendarManager.getCalendarWeek` with the caller's argument slot threaded:
the code copies its argument (`const d = new Date(date)`) and mutates only the
copy `d`, so the argument slot still holds the original value on return. -/
def getCalendarWeekCall (date : Date) : ℕ × Date :=
  let d := date
  let d := shiftDays d (4 - (if jsDay d = 0 then 7 else jsDay d))
  ((dayOfYear d + 6) / 7, date)

/-- `CalendarManager.formatDate` with the argument slot threaded: the code
only reads `date`. -/
def formatDateCall (date : Date) : String × Date :=
  (formatDate date, date)

/-- `CalendarManager.getWeekInfo` with the argument slot threaded: the code
passes `date` to `getCalendarWeek` (which copies it) and reads
`date.getFullYear()`. -/
def getWeekInfoCall (date : Date) : WeekInfo × Date :=
  let w := getCalendarWeekCall date
  ({ week := w.1, year := w.2.year,
     formatted := "KW " ++ toString w.1 ++ "/" ++ toString w.2.year }, w.2)

end BEB

namespace BEB

theorem daysInMonth_pos (y : ℤ) (m : ℕ) (h1 : 1 ≤ m) (h2 : m ≤ 12) :
    1 ≤ daysInMonth y m := by
  interval_cases m <;> (simp only [daysInMonth]; first | omega | (split <;> omega))

theorem isLeapYear_iff (y : ℤ) :
    isLeapYear y = true ↔ ((y % 4 = 0 ∧ y % 100 ≠ 0) ∨ y % 400 = 0) := by
  unfold isLeapYear
  simp [Bool.and_eq_true, Bool.or_eq_true]

theorem daysInMonth_le (y : ℤ) (m : ℕ) : daysInMonth y m ≤ 31 := by
  unfold daysInMonth
  split <;> first | omega | (split <;> omega)

theorem nextDay_valid {dt : Date} (h : dt.Valid) : (nextDay dt).Valid := by
  obtain ⟨y, m, d⟩ := dt
  obtain ⟨h1, h2, h3, h4⟩ := h
  simp only [Date.Valid, nextDay] at *
  split
  · exact ⟨h1, h2, by dsimp only; omega, by dsimp only; omega⟩
  · split
    · refine ⟨by dsimp only; omega, by dsimp only; omega, le_refl 1, ?_⟩
      exact daysInMonth_pos y (m + 1) (by omega) (by omega)
    · exact ⟨by dsimp only; omega, by dsimp only; omega, by dsimp only; omega,
        by simp [daysInMonth]⟩

theorem prevDay_valid {dt : Date} (h : dt.Valid) : (prevDay dt).Valid := by
  obtain ⟨y, m, d⟩ := dt
  obtain ⟨h1, h2, h3, h4⟩ := h
  simp only [Date.Valid, prevDay] at *
  split
  · exact ⟨h1, h2, by dsimp only; omega, by dsimp only; omega⟩
  · split
    · refine ⟨by dsimp only; omega, by dsimp only; omega, ?_, le_refl _⟩
      exact daysInMonth_pos y (m - 1) (by omega) (by omega)
    · exact ⟨by dsimp only; omega, by dsimp only; omega, by dsimp only; omega,
        by simp [daysInMonth]⟩

theorem nextDay_iterate_valid {dt : Date} (h : dt.Valid) (n : ℕ) :
    (nextDay^[n] dt).Valid := by
  induction n with
  | zero => simpa using h
  | succ k ih =>
      rw [Function.iterate_succ_apply']
      exact nextDay_valid ih

theorem prevDay_iterate_valid {dt : Date} (h : dt.Valid) (n : ℕ) :
    (prevDay^[n] dt).Valid := by
  induction n with
  | zero => simpa using h
  | succ k ih =>
      rw [Function.iterate_succ_apply']
      exact prevDay_valid ih

theorem shiftDays_valid {dt : Date} (h : dt.Valid) (k : ℤ) :
    (shiftDays dt k).Valid := by
  unfold shiftDays
  split
  · exact nextDay_iterate_valid h _
  · exact prevDay_iterate_valid h _

set_option maxHeartbeats 1600000 in
theorem daysFromCivil_nextDay {dt : Date} (h : dt.Valid) :
    daysFromCivil (nextDay dt) = daysFromCivil dt + 1 := by
  obtain ⟨y, m, d⟩ := dt
  obtain ⟨h1, h2, h3, h4⟩ := h
  simp only [Date.Valid] at h1 h2 h3 h4
  by_cases hc : ((y % 4 = 0 ∧ y % 100 ≠ 0) ∨ y % 400 = 0)
  · have hl : isLeapYear y = true := (isLeapYear_iff y).mpr hc
    interval_cases m <;>
      (try norm_num [daysInMonth, hl] at h4) <;>
      norm_num [nextDay, daysInMonth, hl] <;>
      (try split_ifs) <;>
      norm_num [daysFromCivil] <;>
      omega
  · have hl : isLeapYear y = false := by
      cases h' : isLeapYear y
      · rfl
      · exact absurd ((isLeapYear_iff y).mp h') hc
    interval_cases m <;>
      (try norm_num [daysInMonth, hl] at h4) <;>
      norm_num [nextDay, daysInMonth, hl] <;>
      (try split_ifs) <;>
      norm_num [daysFromCivil] <;>
      omega

theorem dayOfYear_bounds {dt : Date} (h : dt.Valid) :
    1 ≤ dayOfYear dt ∧ dayOfYear dt ≤ 366 := by
  obtain ⟨y, m, d⟩ := dt
  obtain ⟨h1, h2, h3, h4⟩ := h
  simp only [Date.Valid] at h1 h2 h3 h4
  unfold dayOfYear
  dsimp only at h4 ⊢
  rcases Bool.eq_false_or_eq_true (isLeapYear y) with hl | hl <;>
    interval_cases m <;>
    (try simp [monthOffset, daysInMonth, hl] at h4 ⊢) <;> omega

/-- C1: for every valid date the computed calendar week lies in [1, 53], and
for January 1 of a year whose January 1 is a Monday the result is 1 (the
computation being the ISO shift-to-Thursday, day-of-year, ceil-by-7 rule
embedded in `getCalendarWeek`). -/
theorem getCalendarWeek_range_and_jan1 :
    (∀ dt : Date, dt.Valid → 1 ≤ getCalendarWeek dt ∧ getCalendarWeek dt ≤ 53)
    ∧ (∀ y : ℤ, jsDay ⟨y, 1, 1⟩ = 1 → getCalendarWeek ⟨y, 1, 1⟩ = 1) := by
  constructor
  · intro dt h
    show 1 ≤ (dayOfYear (shiftDays dt (4 - if jsDay dt = 0 then 7 else jsDay dt)) + 6) / 7
      ∧ (dayOfYear (shiftDays dt (4 - if jsDay dt = 0 then 7 else jsDay dt)) + 6) / 7 ≤ 53
    have hv : (shiftDays dt (4 - if jsDay dt = 0 then 7 else jsDay dt)).Valid :=
      shiftDays_valid h _
    have hb := dayOfYear_bounds hv
    omega
  · intro y h
    unfold getCalendarWeek
    rw [h]
    norm_num
    have h3 : shiftDays ⟨y, 1, 1⟩ 3 = ⟨y, 1, 4⟩ := by
      show shiftDays ⟨y, 1, 1⟩ 3 = ⟨y, 1, 4⟩
      unfold shiftDays
      norm_num
      show nextDay^[3] ⟨y, 1, 1⟩ = ⟨y, 1, 4⟩
      simp only [Function.iterate_succ_apply, Function.iterate_zero_apply]
      simp [nextDay, daysInMonth]
    rw [h3]
    simp [dayOfYear, monthOffset]

theorem nextDay_prevDay {dt : Date} (h : dt.Valid) : nextDay (prevDay dt) = dt := by
  obtain ⟨y, m, d⟩ := dt
  obtain ⟨h1, h2, h3, h4⟩ := h
  simp only [Date.Valid] at h1 h2 h3 h4
  simp only [prevDay]
  split_ifs with hd hm
  · simp only [nextDay]
    rw [if_pos (show d - 1 < daysInMonth y m by omega)]
    have he : d - 1 + 1 = d := by omega
    rw [he]
  · simp only [nextDay]
    rw [if_neg (show ¬ daysInMonth y (m - 1) < daysInMonth y (m - 1) by omega),
      if_pos (show m - 1 < 12 by omega)]
    have he : m - 1 + 1 = m := by omega
    have hd1 : d = 1 := by omega
    rw [he, hd1]
  · simp only [nextDay]
    rw [if_neg (show ¬ 31 < daysInMonth (y - 1) 12 by simp [daysInMonth]),
      if_neg (show ¬ (12 : ℕ) < 12 by omega)]
    have hy : y - 1 + 1 = y := by ring
    have hm1 : m = 1 := by omega
    have hd1 : d = 1 := by omega
    rw [hy, hm1, hd1]

theorem daysFromCivil_nextDay_iterate {dt : Date} (h : dt.Valid) (n : ℕ) :
    daysFromCivil (nextDay^[n] dt) = daysFromCivil dt + n := by
  induction n with
  | zero => simp
  | succ k ih =>
      rw [Function.iterate_succ_apply', daysFromCivil_nextDay (nextDay_iterate_valid h k),
        ih]
      push_cast
      ring

theorem daysFromCivil_prevDay {dt : Date} (h : dt.Valid) :
    daysFromCivil (prevDay dt) = daysFromCivil dt - 1 := by
  have h1 := daysFromCivil_nextDay (prevDay_valid h)
  rw [nextDay_prevDay h] at h1
  omega

theorem daysFromCivil_prevDay_iterate {dt : Date} (h : dt.Valid) (n : ℕ) :
    daysFromCivil (prevDay^[n] dt) = daysFromCivil dt - n := by
  induction n with
  | zero => simp
  | succ k ih =>
      rw [Function.iterate_succ_apply', daysFromCivil_prevDay (prevDay_iterate_valid h k),
        ih]
      push_cast
      ring

theorem daysFromCivil_shiftDays {dt : Date} (h : dt.Valid) (k : ℤ) :
    daysFromCivil (shiftDays dt k) = daysFromCivil dt + k := by
  unfold shiftDays
  split_ifs with hk
  · rw [daysFromCivil_nextDay_iterate h]
    omega
  · rw [daysFromCivil_prevDay_iterate h]
    omega

theorem shiftDays_natCast (dt : Date) (n : ℕ) : shiftDays dt (n : ℤ) = nextDay^[n] dt := by
  unfold shiftDays
  rw [if_pos (Int.natCast_nonneg n)]
  simp

theorem weekMonday_valid {today : Date} (h : today.Valid) (sel : String) :
    (weekMonday today sel).Valid := by
  have h6 : (shiftDays today (if jsDay today = 0 then -6 else 1 - jsDay today)).Valid :=
    shiftDays_valid h _
  simp only [weekMonday]
  by_cases hsel : sel = "next"
  · rw [if_pos hsel]
    exact shiftDays_valid h6 _
  · rw [if_neg hsel]
    exact h6

theorem daysFromCivil_weekMonday {today : Date} (h : today.Valid) (sel : String) :
    daysFromCivil (weekMonday today sel) =
      daysFromCivil today + (if jsDay today = 0 then -6 else 1 - jsDay today) +
        (if sel = "next" then 7 else 0) := by
  simp only [weekMonday]
  by_cases hsel : sel = "next"
  · rw [if_pos hsel, if_pos hsel,
      daysFromCivil_shiftDays (shiftDays_valid h _) 7, daysFromCivil_shiftDays h]
  · rw [if_neg hsel, if_neg hsel, daysFromCivil_shiftDays h]
    ring

theorem jsDay_weekMonday {today : Date} (h : today.Valid) (sel : String) :
    jsDay (weekMonday today sel) = 1 := by
  have h1 := daysFromCivil_weekMonday h sel
  have hw : jsDay today = (daysFromCivil today + 4) % 7 := rfl
  have hC : (if sel = "next" then (7 : ℤ) else 0) = 7 ∨
      (if sel = "next" then (7 : ℤ) else 0) = 0 := by
    split_ifs
    · exact Or.inl rfl
    · exact Or.inr rfl
  unfold jsDay
  rw [h1, hw]
  rcases hC with hC | hC <;> rw [hC] <;> split_ifs with h0 <;> omega

theorem getWeekDates_expand (today : Date) (sel : String) :
    getWeekDates today sel =
      [nextDay^[0] (weekMonday today sel), nextDay^[1] (weekMonday today sel),
       nextDay^[2] (weekMonday today sel), nextDay^[3] (weekMonday today sel),
       nextDay^[4] (weekMonday today sel)] := by
  unfold getWeekDates
  simp [List.range_succ, shiftDays]

/-- C2: for every reference date and selector, `getWeekDates` returns exactly
5 strictly consecutive calendar days whose first element is a Monday
(JS day-of-week 1), and the first day for selector "next" is exactly 7 days
after the first day for selector "current". -/
theorem getWeekDates_spec (today : Date) (h : today.Valid) (sel : String) :
    ((getWeekDates today sel).length = 5
      ∧ (∀ i : ℕ, i + 1 < 5 →
          (getWeekDates today sel).getD (i + 1) default =
            nextDay ((getWeekDates today sel).getD i default))
      ∧ jsDay ((getWeekDates today sel).getD 0 default) = 1)
    ∧ daysFromCivil ((getWeekDates today "next").getD 0 default) =
        daysFromCivil ((getWeekDates today "current").getD 0 default) + 7 := by
  refine ⟨⟨?_, ?_, ?_⟩, ?_⟩
  · rw [getWeekDates_expand]
    rfl
  · intro i hi
    have hi' : i ≤ 3 := by omega
    rw [getWeekDates_expand]
    interval_cases i <;>
      simp only [List.getD, List.get?, Option.getD] <;>
      rw [Function.iterate_succ_apply']
  · rw [getWeekDates_expand]
    simp only [List.getD, List.get?, Option.getD, Function.iterate_zero_apply]
    exact jsDay_weekMonday h sel
  · rw [getWeekDates_expand, getWeekDates_expand]
    simp only [List.getD, List.get?, Option.getD, Function.iterate_zero_apply]
    rw [daysFromCivil_weekMonday h, daysFromCivil_weekMonday h,
      if_pos rfl, if_neg (show ¬("current" : String) = "next" by decide)]
    ring

/-- Witness for C2 at the concrete reference date 2024-01-10 (a Wednesday)
and the selector "bogus". -/
theorem getWeekDates_spec_witness :
    (Date.Valid ⟨2024, 1, 10⟩)
    ∧ (((getWeekDates ⟨2024, 1, 10⟩ "bogus").length = 5
      ∧ (∀ i : ℕ, i + 1 < 5 →
          (getWeekDates ⟨2024, 1, 10⟩ "bogus").getD (i + 1) default =
            nextDay ((getWeekDates ⟨2024, 1, 10⟩ "bogus").getD i default))
      ∧ jsDay ((getWeekDates ⟨2024, 1, 10⟩ "bogus").getD 0 default) = 1)
    ∧ daysFromCivil ((getWeekDates ⟨2024, 1, 10⟩ "next").getD 0 default) =
        daysFromCivil ((getWeekDates ⟨2024, 1, 10⟩ "current").getD 0 default) + 7) :=
  ⟨by decide, getWeekDates_spec ⟨2024, 1, 10⟩ (by decide) "bogus"⟩

/-- C9 counterexample: an unrecognized selector does not fail — the code
produces a full 5-day week, identical to the "current" week. -/
theorem getWeekDates_unknown_selector_counterexample :
    getWeekDates ⟨2024, 1, 10⟩ "bogus" = getWeekDates ⟨2024, 1, 10⟩ "current"
    ∧ (getWeekDates ⟨2024, 1, 10⟩ "bogus").length = 5 := by
  exact ⟨by decide, by decide⟩

/-- C9 amended: any selector other than "next" is silently treated as
"current"; `getWeekDates` never fails. -/
theorem getWeekDates_unknown_selector_amended (today : Date) (sel : String)
    (h : sel ≠ "next") : getWeekDates today sel = getWeekDates today "current" := by
  unfold getWeekDates weekMonday
  rw [if_neg h, if_neg (by decide : ¬("current" : String) = "next")]

/-- Witness for the amended C9 at the selector "bogus". -/
theorem getWeekDates_unknown_selector_amended_witness :
    ("bogus" : String) ≠ "next"
    ∧ getWeekDates ⟨2024, 1, 10⟩ "bogus" = getWeekDates ⟨2024, 1, 10⟩ "current" :=
  ⟨by decide, getWeekDates_unknown_selector_amended ⟨2024, 1, 10⟩ "bogus" (by decide)⟩

/-- Witness for C1: the range part at 2024-01-10, and the Monday-January-1
part at the year 2024 (whose January 1 was indeed a Monday). -/
theorem getCalendarWeek_range_and_jan1_witness :
    ((Date.Valid ⟨2024, 1, 10⟩)
      ∧ 1 ≤ getCalendarWeek ⟨2024, 1, 10⟩ ∧ getCalendarWeek ⟨2024, 1, 10⟩ ≤ 53)
    ∧ (jsDay ⟨2024, 1, 1⟩ = 1 ∧ getCalendarWeek ⟨2024, 1, 1⟩ = 1) :=
  ⟨⟨by decide, getCalendarWeek_range_and_jan1.1 ⟨2024, 1, 10⟩ (by decide)⟩,
   ⟨by decide, getCalendarWeek_range_and_jan1.2 2024 (by decide)⟩⟩

theorem filterMap_ite {α β : Type} (p : α → Prop) [DecidablePred p] (f : α → β)
    (l : List α) :
    (l.filterMap fun x => if p x then some (f x) else none) =
      (l.filter fun x => decide (p x)).map f := by
  induction l with
  | nil => rfl
  | cons a t ih =>
      by_cases h : p a <;> simp [List.filterMap_cons, List.filter_cons, h, ih]

/-- C5 amended: a weekday contributes a line exactly when it is selected and
its time string is non-empty — no syntax check is applied, so a selected day
with a malformed non-empty time is included verbatim rather than excluded. -/
theorem generatePickupList_qualification (today : Date) (w : String)
    (sel : PickupSelection) :
    generatePickupList today w sel =
      ((List.range 5).filter
        fun i => decide (daySelected sel i = true ∧ dayTime sel i ≠ "")).map
        (pickupLine sel (getWeekDates today w))
    ∧ (∀ i : ℕ, i < 5 → daySelected sel i = true → dayTime sel i ≠ "" →
        pickupLine sel (getWeekDates today w) i ∈ generatePickupList today w sel) := by
  have hstruct : generatePickupList today w sel =
      ((List.range 5).filter
        fun i => decide (daySelected sel i = true ∧ dayTime sel i ≠ "")).map
        (pickupLine sel (getWeekDates today w)) := by
    unfold generatePickupList
    exact filterMap_ite _ _ _
  refine ⟨hstruct, ?_⟩
  intro i hi hsel htime
  rw [hstruct]
  exact List.mem_map_of_mem _
    (List.mem_filter.mpr ⟨List.mem_range.mpr hi, by simp [hsel, htime]⟩)

/-- C5 counterexample: monday selected with the malformed, non-empty time
"99:99" — the claim requires exclusion, but the code emits the line. -/
theorem generatePickupList_malformed_time_counterexample :
    validTime "99:99" = false
    ∧ ("99:99" : String) ≠ ""
    ∧ generatePickupList ⟨2024, 1, 10⟩ "current"
        ⟨true, false, false, false, false, "99:99", "", "", "", ""⟩ =
      ["• Montag, 8. Januar 2024 um 99:99 Uhr"] := by
  exact ⟨by decide, by decide, by decide⟩

/-- Witness for the amended C5: the malformed-but-non-empty Monday time
"99:99" does contribute its line. -/
theorem generatePickupList_qualification_witness :
    pickupLine ⟨true, false, false, false, false, "99:99", "", "", "", ""⟩
        (getWeekDates ⟨2024, 1, 10⟩ "current") 0 ∈
      generatePickupList ⟨2024, 1, 10⟩ "current"
        ⟨true, false, false, false, false, "99:99", "", "", "", ""⟩ :=
  (generatePickupList_qualification ⟨2024, 1, 10⟩ "current"
      ⟨true, false, false, false, false, "99:99", "", "", "", ""⟩).2
    0 (by norm_num) (by decide) (by decide)

/-- C4 amended: `generatePickupList` visits the weekdays Monday..Friday in
order, emits one line of the fixed template per selected day with non-empty
time (validity of the time is not checked), omits the other days preserving
order, is empty exactly when no day is selected with a non-empty time, and
with only Monday so selected returns exactly the Monday line. -/
theorem generatePickupList_order (today : Date) (w : String)
    (sel : PickupSelection) :
    generatePickupList today w sel =
      ((List.range 5).filter
        fun i => decide (daySelected sel i = true ∧ dayTime sel i ≠ "")).map
        (fun i => "• " ++ dayNames.getD i "" ++ ", " ++
          formatDate ((getWeekDates today w).getD i default) ++ " um " ++
          dayTime sel i ++ " Uhr")
    ∧ (generatePickupList today w sel = [] ↔
        ∀ i : ℕ, i < 5 → ¬(daySelected sel i = true ∧ dayTime sel i ≠ ""))
    ∧ ((sel.monday = true ∧ sel.mondayTime ≠ "" ∧
          (∀ i : ℕ, 1 ≤ i → i < 5 → ¬(daySelected sel i = true ∧ dayTime sel i ≠ ""))) →
        generatePickupList today w sel =
          ["• Montag, " ++ formatDate ((getWeekDates today w).getD 0 default) ++
            " um " ++ sel.mondayTime ++ " Uhr"]) := by
  have hstruct : generatePickupList today w sel =
      ((List.range 5).filter
        fun i => decide (daySelected sel i = true ∧ dayTime sel i ≠ "")).map
        (pickupLine sel (getWeekDates today w)) := by
    unfold generatePickupList
    exact filterMap_ite _ _ _
  refine ⟨hstruct, ?_, ?_⟩
  · rw [hstruct]
    simp only [List.map_eq_nil_iff, List.filter_eq_nil_iff, List.mem_range,
      decide_eq_true_eq]
  · rintro ⟨hm, ht, hrest⟩
    have e0 : decide (daySelected sel 0 = true ∧ dayTime sel 0 ≠ "") = true := by
      simp [daySelected, dayTime, hm, ht]
    have e1 : decide (daySelected sel 1 = true ∧ dayTime sel 1 ≠ "") = false :=
      decide_eq_false (hrest 1 (by norm_num) (by norm_num))
    have e2 : decide (daySelected sel 2 = true ∧ dayTime sel 2 ≠ "") = false :=
      decide_eq_false (hrest 2 (by norm_num) (by norm_num))
    have e3 : decide (daySelected sel 3 = true ∧ dayTime sel 3 ≠ "") = false :=
      decide_eq_false (hrest 3 (by norm_num) (by norm_num))
    have e4 : decide (daySelected sel 4 = true ∧ dayTime sel 4 ≠ "") = false :=
      decide_eq_false (hrest 4 (by norm_num) (by norm_num))
    rw [hstruct, show List.range 5 = [0, 1, 2, 3, 4] from rfl]
    simp only [List.filter_cons, List.filter_nil, e0, e1, e2, e3, e4,
      if_true, if_false, List.map_cons, List.map_nil]
    simp [pickupLine, dayNames, dayTime]

/-- C4 counterexample: only Tuesday is selected and its time "25:00" is
malformed, so by the claim's qualification rule no day qualifies and the
result should be empty — but the code emits the Tuesday line. -/
theorem generatePickupList_order_counterexample :
    (∀ i : ℕ, i < 5 →
      ¬(daySelected ⟨false, true, false, false, false, "", "25:00", "", "", ""⟩ i = true
        ∧ dayTime ⟨false, true, false, false, false, "", "25:00", "", "", ""⟩ i ≠ ""
        ∧ validTime
            (dayTime ⟨false, true, false, false, false, "", "25:00", "", "", ""⟩ i) = true))
    ∧ generatePickupList ⟨2024, 1, 10⟩ "current"
        ⟨false, true, false, false, false, "", "25:00", "", "", ""⟩ ≠ [] := by
  exact ⟨by decide, by decide⟩

theorem containsStr_append_right {l s : String} (h : containsStr l s) (t : String) :
    containsStr l (s ++ t) := by
  obtain ⟨u, v, rfl⟩ := h
  exact ⟨u, v ++ t, by simp [String.append_assoc]⟩

theorem containsStr_append_left {l s : String} (h : containsStr l s) (t : String) :
    containsStr l (t ++ s) := by
  obtain ⟨u, v, rfl⟩ := h
  exact ⟨t ++ u, v, by simp [String.append_assoc]⟩

theorem containsStr_trans {a l s : String} (h1 : containsStr a l)
    (h2 : containsStr l s) : containsStr a s := by
  obtain ⟨u1, v1, rfl⟩ := h1
  obtain ⟨u2, v2, rfl⟩ := h2
  exact ⟨u2 ++ u1, v1 ++ v2, by simp [String.append_assoc]⟩

theorem intercalate_go_acc (s : String) (as : List String) :
    ∀ acc : String, ∃ v : String, String.intercalate.go acc s as = acc ++ v := by
  induction as with
  | nil =>
      intro acc
      exact ⟨"", by simp [String.intercalate.go, String.append_empty]⟩
  | cons a t ih =>
      intro acc
      obtain ⟨v, hv⟩ := ih (acc ++ s ++ a)
      refine ⟨s ++ a ++ v, ?_⟩
      show String.intercalate.go (acc ++ s ++ a) s t = _
      rw [hv]
      simp [String.append_assoc]

theorem intercalate_go_mem (s l : String) (as : List String) :
    ∀ acc : String, l ∈ as → containsStr l (String.intercalate.go acc s as) := by
  induction as with
  | nil =>
      intro acc h
      exact absurd h (List.not_mem_nil l)
  | cons a t ih =>
      intro acc h
      rcases List.mem_cons.mp h with rfl | h'
      · obtain ⟨v, hv⟩ := intercalate_go_acc s t (acc ++ s ++ l)
        refine ⟨acc ++ s, v, ?_⟩
        show String.intercalate.go (acc ++ s ++ l) s t = _
        rw [hv]
      · show containsStr l (String.intercalate.go (acc ++ s ++ a) s t)
        exact ih (acc ++ s ++ a) h'

theorem containsStr_intercalate {s l : String} {L : List String} (h : l ∈ L) :
    containsStr l (String.intercalate s L) := by
  cases L with
  | nil => exact absurd h (List.not_mem_nil l)
  | cons a t =>
      rcases List.mem_cons.mp h with rfl | h'
      · obtain ⟨v, hv⟩ := intercalate_go_acc s t l
        exact ⟨"", v, by
          show String.intercalate.go l s t = _
          rw [hv, String.empty_append]⟩
      · show containsStr l (String.intercalate.go a s t)
        exact intercalate_go_mem s l t a h'

/-- Witness for the amended C4: Monday-only selection with the valid time
"16:00" yields exactly the Monday line. -/
theorem generatePickupList_order_witness :
    generatePickupList ⟨2024, 1, 10⟩ "current"
        ⟨true, false, false, false, false, "16:00", "", "", "", ""⟩ =
      ["• Montag, " ++
        formatDate ((getWeekDates ⟨2024, 1, 10⟩ "current").getD 0 default) ++
        " um " ++
        (⟨true, false, false, false, false, "16:00", "", "", "", ""⟩ :
          PickupSelection).mondayTime ++ " Uhr"] :=
  (generatePickupList_order ⟨2024, 1, 10⟩ "current"
      ⟨true, false, false, false, false, "16:00", "", "", "", ""⟩).2.2 (by decide)

/-- C3: when no weekday qualifies for a pickup line (the pickup list is
empty), `generateEmail` fails with the no-days-selected reason and leaves the
stored artifact untouched: both getters return the same values after the
failed call as before it. -/
theorem generateEmail_no_days (st : EmailState) (today : Date) (fd : FormData)
    (w : String) (pd : PickupSelection)
    (h : generatePickupList today w pd = []) :
    (generateEmail st today fd w pd).1.success = false
    ∧ (generateEmail st today fd w pd).1.error = noDaysMsg
    ∧ (generateEmail st today fd w pd).2 = st
    ∧ getCurrentEmailContent (generateEmail st today fd w pd).2 =
        getCurrentEmailContent st
    ∧ getCurrentMailtoLink (generateEmail st today fd w pd).2 =
        getCurrentMailtoLink st := by
  simp only [generateEmail]
  rw [if_pos h]
  exact ⟨rfl, rfl, rfl, rfl, rfl⟩

/-- Witness for C3 at a pickup selection with no selected day, against a
state holding a previous artifact. -/
theorem generateEmail_no_days_witness :
    generatePickupList ⟨2024, 1, 10⟩ "current"
        ⟨false, false, false, false, false, "", "", "", "", ""⟩ = []
    ∧ ((generateEmail ⟨"prevContent", "prevLink"⟩ ⟨2024, 1, 10⟩
          ⟨"P", "", "C", "", "beb@x.de", ""⟩ "current"
          ⟨false, false, false, false, false, "", "", "", "", ""⟩).1.success = false
      ∧ (generateEmail ⟨"prevContent", "prevLink"⟩ ⟨2024, 1, 10⟩
          ⟨"P", "", "C", "", "beb@x.de", ""⟩ "current"
          ⟨false, false, false, false, false, "", "", "", "", ""⟩).1.error = noDaysMsg
      ∧ (generateEmail ⟨"prevContent", "prevLink"⟩ ⟨2024, 1, 10⟩
          ⟨"P", "", "C", "", "beb@x.de", ""⟩ "current"
          ⟨false, false, false, false, false, "", "", "", "", ""⟩).2 =
          ⟨"prevContent", "prevLink"⟩
      ∧ getCurrentEmailContent (generateEmail ⟨"prevContent", "prevLink"⟩
          ⟨2024, 1, 10⟩ ⟨"P", "", "C", "", "beb@x.de", ""⟩ "current"
          ⟨false, false, false, false, false, "", "", "", "", ""⟩).2 =
          getCurrentEmailContent ⟨"prevContent", "prevLink"⟩
      ∧ getCurrentMailtoLink (generateEmail ⟨"prevContent", "prevLink"⟩
          ⟨2024, 1, 10⟩ ⟨"P", "", "C", "", "beb@x.de", ""⟩ "current"
          ⟨false, false, false, false, false, "", "", "", "", ""⟩).2 =
          getCurrentMailtoLink ⟨"prevContent", "prevLink"⟩) :=
  ⟨by decide,
   generateEmail_no_days ⟨"prevContent", "prevLink"⟩ ⟨2024, 1, 10⟩
     ⟨"P", "", "C", "", "beb@x.de", ""⟩ "current"
     ⟨false, false, false, false, false, "", "", "", "", ""⟩ (by decide)⟩

/-- C8: with at least one qualifying pickup day, `generateEmail` succeeds;
the subject is the fixed template embedding the child names and the week
label (so it contains both); the body contains the parent's name, every
pickup line (hence every qualifying day's time), the notes block exactly when
notes is non-empty and the class designator "Klasse: {class}" exactly when
childClass is non-empty (the body equation pins both presence and absence);
and the preview block is exactly "An: {recipient}\n" + optional
"CC: {parentEmail}\n" + "Betreff: {subject}\n\n" + body, in that order. -/
theorem generateEmail_success (st : EmailState) (today : Date) (fd : FormData)
    (w : String) (pd : PickupSelection)
    (h : generatePickupList today w pd ≠ []) :
    (generateEmail st today fd w pd).1.success = true
    ∧ (generateEmail st today fd w pd).1.subject =
        "Abholzeiten für " ++ fd.childNames ++ " - " ++
          (getWeekInfo ((getWeekDates today w).getD 0 default)).formatted
    ∧ containsStr fd.childNames (generateEmail st today fd w pd).1.subject
    ∧ containsStr (getWeekInfo ((getWeekDates today w).getD 0 default)).formatted
        (generateEmail st today fd w pd).1.subject
    ∧ containsStr fd.parentName (generateEmail st today fd w pd).1.body
    ∧ (∀ l ∈ generatePickupList today w pd,
        containsStr l (generateEmail st today fd w pd).1.body)
    ∧ (fd.notes ≠ "" →
        containsStr ("Zusätzliche Notizen:\n" ++ fd.notes)
          (generateEmail st today fd w pd).1.body)
    ∧ (fd.childClass ≠ "" →
        containsStr ("Klasse: " ++ fd.childClass)
          (generateEmail st today fd w pd).1.body)
    ∧ (generateEmail st today fd w pd).1.body =
        createEmailBody fd (getWeekInfo ((getWeekDates today w).getD 0 default))
          (generatePickupList today w pd)
    ∧ (generateEmail st today fd w pd).1.displayContent =
        "An: " ++ fd.bebLocation ++ "\n" ++
          (if fd.parentEmail ≠ "" then "CC: " ++ fd.parentEmail ++ "\n" else "") ++
          "Betreff: " ++ (generateEmail st today fd w pd).1.subject ++ "\n\n" ++
          (generateEmail st today fd w pd).1.body := by
  simp only [generateEmail]
  rw [if_neg h]
  refine ⟨rfl, rfl, ?_, ?_, ?_, ?_, ?_, ?_, rfl, rfl⟩
  · exact ⟨"Abholzeiten für ", " - " ++
      (getWeekInfo ((getWeekDates today w).getD 0 default)).formatted,
      by simp [createSubject, String.append_assoc]⟩
  · exact ⟨"Abholzeiten für " ++ fd.childNames ++ " - ", "",
      by simp [createSubject, String.append_assoc, String.append_empty]⟩
  · refine ⟨"Hallo,\n\n" ++ "hiermit teile ich Ihnen die Abholzeiten für " ++
      (fd.childNames ++
        (if fd.childClass ≠ "" then " (Klasse: " ++ fd.childClass ++ ")" else "")) ++
      " für " ++ (getWeekInfo ((getWeekDates today w).getD 0 default)).formatted ++
      " mit:\n\n" ++ String.intercalate "\n" (generatePickupList today w pd) ++
      "\n\n" ++
      (if fd.notes ≠ "" then "Zusätzliche Notizen:\n" ++ fd.notes ++ "\n\n" else "") ++
      "Vielen Dank!\n\n" ++ "Mit freundlichen Grüßen\n", "", ?_⟩
    simp [createEmailBody, String.append_assoc, String.append_empty]
  · intro l hl
    show containsStr l (createEmailBody fd _ _)
    simp only [createEmailBody]
    exact containsStr_append_right (containsStr_append_right (containsStr_append_right
      (containsStr_append_right (containsStr_append_right (containsStr_append_left
        (containsStr_intercalate hl) _) _) _) _) _) _
  · intro hn
    show containsStr ("Zusätzliche Notizen:\n" ++ fd.notes) (createEmailBody fd _ _)
    simp only [createEmailBody]
    rw [if_pos hn]
    refine containsStr_append_right (containsStr_append_right (containsStr_append_right
      (containsStr_append_left ?_ _) _) _) _
    exact ⟨"", "\n\n", by simp [String.append_assoc, String.empty_append]⟩
  · intro hc
    show containsStr ("Klasse: " ++ fd.childClass) (createEmailBody fd _ _)
    simp only [createEmailBody]
    rw [if_pos hc]
    refine containsStr_append_right (containsStr_append_right (containsStr_append_right
      (containsStr_append_right (containsStr_append_right (containsStr_append_right
        (containsStr_append_right (containsStr_append_right (containsStr_append_right
          (containsStr_append_left ?_ _) _) _) _) _) _) _) _) _) _
    refine containsStr_append_left ?_ fd.childNames
    refine ⟨" (", ")", ?_⟩
    have hsplit : (" (Klasse: " : String) = " (" ++ "Klasse: " := by decide
    rw [hsplit, String.append_assoc " (" "Klasse: " fd.childClass]

/-- Witness for C8 at a fully populated concrete form (Monday selected with
time "16:00", non-empty notes and class). -/
theorem generateEmail_success_witness :
    generatePickupList ⟨2024, 1, 10⟩ "current"
        ⟨true, false, false, false, false, "16:00", "", "", "", ""⟩ ≠ []
    ∧ ((generateEmail ⟨"", ""⟩ ⟨2024, 1, 10⟩
          ⟨"Test Parent", "parent@example.com", "Test Child", "3a",
            "test@example.com", "Bitte pünktlich"⟩ "current"
          ⟨true, false, false, false, false, "16:00", "", "", "", ""⟩).1.success = true
      ∧ (generateEmail ⟨"", ""⟩ ⟨2024, 1, 10⟩
          ⟨"Test Parent", "parent@example.com", "Test Child", "3a",
            "test@example.com", "Bitte pünktlich"⟩ "current"
          ⟨true, false, false, false, false, "16:00", "", "", "", ""⟩).1.subject =
          "Abholzeiten für " ++ "Test Child" ++ " - " ++
            (getWeekInfo ((getWeekDates ⟨2024, 1, 10⟩ "current").getD 0
              default)).formatted
      ∧ containsStr "Test Child"
          (generateEmail ⟨"", ""⟩ ⟨2024, 1, 10⟩
            ⟨"Test Parent", "parent@example.com", "Test Child", "3a",
              "test@example.com", "Bitte pünktlich"⟩ "current"
            ⟨true, false, false, false, false, "16:00", "", "", "", ""⟩).1.subject
      ∧ containsStr
          (getWeekInfo ((getWeekDates ⟨2024, 1, 10⟩ "current").getD 0
            default)).formatted
          (generateEmail ⟨"", ""⟩ ⟨2024, 1, 10⟩
            ⟨"Test Parent", "parent@example.com", "Test Child", "3a",
              "test@example.com", "Bitte pünktlich"⟩ "current"
            ⟨true, false, false, false, false, "16:00", "", "", "", ""⟩).1.subject
      ∧ containsStr "Test Parent"
          (generateEmail ⟨"", ""⟩ ⟨2024, 1, 10⟩
            ⟨"Test Parent", "parent@example.com", "Test Child", "3a",
              "test@example.com", "Bitte pünktlich"⟩ "current"
            ⟨true, false, false, false, false, "16:00", "", "", "", ""⟩).1.body
      ∧ (∀ l ∈ generatePickupList ⟨2024, 1, 10⟩ "current"
            ⟨true, false, false, false, false, "16:00", "", "", "", ""⟩,
          containsStr l
            (generateEmail ⟨"", ""⟩ ⟨2024, 1, 10⟩
              ⟨"Test Parent", "parent@example.com", "Test Child", "3a",
                "test@example.com", "Bitte pünktlich"⟩ "current"
              ⟨true, false, false, false, false, "16:00", "", "", "", ""⟩).1.body)
      ∧ (("Bitte pünktlich" : String) ≠ "" →
          containsStr ("Zusätzliche Notizen:\n" ++ "Bitte pünktlich")
            (generateEmail ⟨"", ""⟩ ⟨2024, 1, 10⟩
              ⟨"Test Parent", "parent@example.com", "Test Child", "3a",
                "test@example.com", "Bitte pünktlich"⟩ "current"
              ⟨true, false, false, false, false, "16:00", "", "", "", ""⟩).1.body)
      ∧ (("3a" : String) ≠ "" →
          containsStr ("Klasse: " ++ "3a")
            (generateEmail ⟨"", ""⟩ ⟨2024, 1, 10⟩
              ⟨"Test Parent", "parent@example.com", "Test Child", "3a",
                "test@example.com", "Bitte pünktlich"⟩ "current"
              ⟨true, false, false, false, false, "16:00", "", "", "", ""⟩).1.body)
      ∧ (generateEmail ⟨"", ""⟩ ⟨2024, 1, 10⟩
          ⟨"Test Parent", "parent@example.com", "Test Child", "3a",
            "test@example.com", "Bitte pünktlich"⟩ "current"
          ⟨true, false, false, false, false, "16:00", "", "", "", ""⟩).1.body =
          createEmailBody
            ⟨"Test Parent", "parent@example.com", "Test Child", "3a",
              "test@example.com", "Bitte pünktlich"⟩
            (getWeekInfo ((getWeekDates ⟨2024, 1, 10⟩ "current").getD 0 default))
            (generatePickupList ⟨2024, 1, 10⟩ "current"
              ⟨true, false, false, false, false, "16:00", "", "", "", ""⟩)
      ∧ (generateEmail ⟨"", ""⟩ ⟨2024, 1, 10⟩
          ⟨"Test Parent", "parent@example.com", "Test Child", "3a",
            "test@example.com", "Bitte pünktlich"⟩ "current"
          ⟨true, false, false, false, false, "16:00", "", "", "", ""⟩).1.displayContent =
          "An: " ++ "test@example.com" ++ "\n" ++
            (if ("parent@example.com" : String) ≠ "" then
              "CC: " ++ "parent@example.com" ++ "\n" else "") ++
            "Betreff: " ++
            (generateEmail ⟨"", ""⟩ ⟨2024, 1, 10⟩
              ⟨"Test Parent", "parent@example.com", "Test Child", "3a",
                "test@example.com", "Bitte pünktlich"⟩ "current"
              ⟨true, false, false, false, false, "16:00", "", "", "", ""⟩).1.subject ++
            "\n\n" ++
            (generateEmail ⟨"", ""⟩ ⟨2024, 1, 10⟩
              ⟨"Test Parent", "parent@example.com", "Test Child", "3a",
                "test@example.com", "Bitte pünktlich"⟩ "current"
              ⟨true, false, false, false, false, "16:00", "", "", "", ""⟩).1.body) :=
  ⟨by decide,
   generateEmail_success ⟨"", ""⟩ ⟨2024, 1, 10⟩
     ⟨"Test Parent", "parent@example.com", "Test Child", "3a",
       "test@example.com", "Bitte pünktlich"⟩ "current"
     ⟨true, false, false, false, false, "16:00", "", "", "", ""⟩ (by decide)⟩

theorem hexVal_hexDigit {n : ℕ} (h : n < 16) : hexVal (hexDigit n) = some n := by
  interval_cases n <;> decide

theorem isUnreserved_lt {c : Char} (h : isUnreserved c = true) : c.toNat < 128 := by
  simp only [isUnreserved, decide_eq_true_eq] at h
  omega

theorem isUnreserved_ne_percent {c : Char} (h : isUnreserved c = true) : ¬ c = '%' := by
  intro he
  subst he
  exact absurd h (by decide)

theorem char_toNat_lt (c : Char) : c.toNat < 1114112 := by
  rcases c.valid with h | ⟨h1, h2⟩
  · exact Nat.lt_trans h (by norm_num)
  · exact h2

theorem utf8Bytes_lt {n : ℕ} (hn : n < 1114112) : ∀ b ∈ utf8Bytes n, b < 256 := by
  intro b hb
  unfold utf8Bytes at hb
  split_ifs at hb with h1 h2 h3
  · simp only [List.mem_singleton] at hb
    omega
  · simp only [List.mem_cons, List.not_mem_nil, or_false] at hb
    rcases hb with rfl | rfl <;> omega
  · simp only [List.mem_cons, List.not_mem_nil, or_false] at hb
    rcases hb with rfl | rfl | rfl <;> omega
  · simp only [List.mem_cons, List.not_mem_nil, or_false] at hb
    rcases hb with rfl | rfl | rfl | rfl <;> omega

theorem percentDecodeBytes_append_bytes (bs : List ℕ) (h : ∀ b ∈ bs, b < 256)
    (cs : List Char) :
    percentDecodeBytes ((bs.map percentByte).flatten ++ cs) =
      (percentDecodeBytes cs).map fun l => bs ++ l := by
  induction bs with
  | nil => simp
  | cons b t ih =>
      have hb : b < 256 := h b (List.mem_cons_self b t)
      have ht : ∀ x ∈ t, x < 256 := fun x hx => h x (List.mem_cons_of_mem b hx)
      rw [List.map_cons, List.flatten_cons, List.append_assoc]
      show percentDecodeBytes
          ('%' :: hexDigit (b / 16) :: hexDigit (b % 16) ::
            ((t.map percentByte).flatten ++ cs)) = _
      simp only [percentDecodeBytes, if_pos rfl]
      rw [hexVal_hexDigit (by omega : b / 16 < 16),
        hexVal_hexDigit (by omega : b % 16 < 16)]
      simp only [ih ht, Option.map_map]
      have hbb : b / 16 * 16 + b % 16 = b := by omega
      rw [hbb]
      rfl

theorem percentDecodeBytes_encChar (c : Char) (cs : List Char) :
    percentDecodeBytes (encChar c ++ cs) =
      (percentDecodeBytes cs).map fun l => utf8Bytes c.toNat ++ l := by
  unfold encChar
  split_ifs with hu
  · have hne := isUnreserved_ne_percent hu
    show percentDecodeBytes (c :: cs) = _
    match cs with
    | [] => simp only [percentDecodeBytes, if_neg hne]
    | [d] => simp only [percentDecodeBytes, if_neg hne]
    | d :: e :: r => simp only [percentDecodeBytes, if_neg hne]
  · exact percentDecodeBytes_append_bytes (utf8Bytes c.toNat)
      (utf8Bytes_lt (char_toNat_lt c)) cs

theorem percentDecodeBytes_encode (l : List Char) :
    percentDecodeBytes (l.map encChar).flatten =
      some (l.map fun c => utf8Bytes c.toNat).flatten := by
  induction l with
  | nil => rfl
  | cons c t ih =>
      rw [List.map_cons, List.flatten_cons, percentDecodeBytes_encChar, ih,
        List.map_cons, List.flatten_cons]
      rfl

theorem utf8Cont_cons {b : ℕ} (h1 : 128 ≤ b) (h2 : b < 192) (bs : List ℕ) :
    utf8Cont (b :: bs) = some (b - 128, ⟨bs, by simp⟩) := by
  simp only [utf8Cont]
  rw [if_pos (And.intro h1 h2)]

theorem utf8Decode_one {b1 : ℕ} (h1 : b1 < 128) (bs : List ℕ) :
    utf8Decode (b1 :: bs) = (utf8Decode bs).map fun l => Char.ofNat b1 :: l := by
  rw [utf8Decode]
  rw [if_pos h1]

theorem utf8Decode_two {b1 b2 : ℕ} (h1 : 192 ≤ b1) (h2 : b1 < 224)
    (h3 : 128 ≤ b2) (h4 : b2 < 192) (bs : List ℕ) :
    utf8Decode (b1 :: b2 :: bs) =
      (utf8Decode bs).map fun l => Char.ofNat ((b1 - 192) * 64 + (b2 - 128)) :: l := by
  rw [utf8Decode]
  rw [if_neg (by omega : ¬ b1 < 128), if_neg (by omega : ¬ b1 < 192), if_pos h2,
    utf8Cont_cons h3 h4]

theorem utf8Decode_three {b1 b2 b3 : ℕ} (h1 : 224 ≤ b1) (h2 : b1 < 240)
    (h3 : 128 ≤ b2) (h4 : b2 < 192) (h5 : 128 ≤ b3) (h6 : b3 < 192) (bs : List ℕ) :
    utf8Decode (b1 :: b2 :: b3 :: bs) =
      (utf8Decode bs).map fun l =>
        Char.ofNat ((b1 - 224) * 4096 + (b2 - 128) * 64 + (b3 - 128)) :: l := by
  rw [utf8Decode]
  rw [if_neg (by omega : ¬ b1 < 128), if_neg (by omega : ¬ b1 < 192),
    if_neg (by omega : ¬ b1 < 224), if_pos h2, utf8Cont_cons h3 h4]
  dsimp only
  rw [utf8Cont_cons h5 h6]

theorem utf8Decode_four {b1 b2 b3 b4 : ℕ} (h1 : 240 ≤ b1) (h2 : b1 < 248)
    (h3 : 128 ≤ b2) (h4 : b2 < 192) (h5 : 128 ≤ b3) (h6 : b3 < 192)
    (h7 : 128 ≤ b4) (h8 : b4 < 192) (bs : List ℕ) :
    utf8Decode (b1 :: b2 :: b3 :: b4 :: bs) =
      (utf8Decode bs).map fun l =>
        Char.ofNat ((b1 - 240) * 262144 + (b2 - 128) * 4096 + (b3 - 128) * 64 +
          (b4 - 128)) :: l := by
  rw [utf8Decode]
  rw [if_neg (by omega : ¬ b1 < 128), if_neg (by omega : ¬ b1 < 192),
    if_neg (by omega : ¬ b1 < 224), if_neg (by omega : ¬ b1 < 240), if_pos h2,
    utf8Cont_cons h3 h4]
  dsimp only
  rw [utf8Cont_cons h5 h6]
  dsimp only
  rw [utf8Cont_cons h7 h8]

theorem utf8Decode_append (c : Char) (bs : List ℕ) :
    utf8Decode (utf8Bytes c.toNat ++ bs) = (utf8Decode bs).map fun l => c :: l := by
  have hlt := char_toNat_lt c
  unfold utf8Bytes
  split_ifs with h1 h2 h3
  · show utf8Decode (c.toNat :: bs) = _
    rw [utf8Decode_one h1, Char.ofNat_toNat]
  · show utf8Decode (_ :: _ :: bs) = _
    rw [utf8Decode_two (by omega) (by omega) (by omega) (by omega),
      show (192 + c.toNat / 64 - 192) * 64 + (128 + c.toNat % 64 - 128) = c.toNat by
        omega,
      Char.ofNat_toNat]
  · show utf8Decode (_ :: _ :: _ :: bs) = _
    rw [utf8Decode_three (by omega) (by omega) (by omega) (by omega) (by omega)
        (by omega),
      show (224 + c.toNat / 4096 - 224) * 4096 + (128 + c.toNat / 64 % 64 - 128) * 64 +
          (128 + c.toNat % 64 - 128) = c.toNat by omega,
      Char.ofNat_toNat]
  · show utf8Decode (_ :: _ :: _ :: _ :: bs) = _
    rw [utf8Decode_four (by omega) (by omega) (by omega) (by omega) (by omega)
        (by omega) (by omega) (by omega),
      show (240 + c.toNat / 262144 - 240) * 262144 +
          (128 + c.toNat / 4096 % 64 - 128) * 4096 +
          (128 + c.toNat / 64 % 64 - 128) * 64 + (128 + c.toNat % 64 - 128) = c.toNat by
        omega,
      Char.ofNat_toNat]

theorem utf8Decode_encode (l : List Char) :
    utf8Decode (l.map fun c => utf8Bytes c.toNat).flatten = some l := by
  induction l with
  | nil =>
      simp only [List.map_nil, List.flatten_nil]
      rw [utf8Decode]
  | cons c t ih =>
      rw [List.map_cons, List.flatten_cons, utf8Decode_append, ih]
      rfl

/-- Percent-encoding round-trip: decoding an `encodeURIComponent` output
recovers the original string exactly. -/
theorem decodeURIComponent_encodeURIComponent (s : String) :
    decodeURIComponent (encodeURIComponent s) = some s := by
  unfold decodeURIComponent
  have hdata : (encodeURIComponent s).data = (s.data.map encChar).flatten := rfl
  rw [hdata, percentDecodeBytes_encode]
  dsimp only
  rw [utf8Decode_encode]

/-- C6: the mail-handoff URI always begins with `mailto:{recipient}`; a
`&cc={...}` query segment is present exactly when the cc address is
non-empty; and percent-decoding the subject/body parameter values (the
`encodeURIComponent` images embedded at the `subject=`/`body=` positions)
yields exactly the original subject and body (and likewise for cc when
present). -/
theorem createMailtoLink_spec (r s b cc : String) :
    (∃ rest : String, createMailtoLink r s b cc = "mailto:" ++ r ++ rest)
    ∧ ((∃ cv : String, createMailtoLink r s b cc =
        "mailto:" ++ r ++ "?subject=" ++ encodeURIComponent s ++ "&body=" ++
          encodeURIComponent b ++ ("&cc=" ++ cv)) ↔ cc ≠ "")
    ∧ decodeURIComponent (encodeURIComponent s) = some s
    ∧ decodeURIComponent (encodeURIComponent b) = some b
    ∧ (cc ≠ "" →
        createMailtoLink r s b cc =
          "mailto:" ++ r ++ "?subject=" ++ encodeURIComponent s ++ "&body=" ++
            encodeURIComponent b ++ ("&cc=" ++ encodeURIComponent cc)
        ∧ decodeURIComponent (encodeURIComponent cc) = some cc) := by
  refine ⟨?_, ⟨?_, ?_⟩, decodeURIComponent_encodeURIComponent s,
    decodeURIComponent_encodeURIComponent b, ?_⟩
  · refine ⟨"?subject=" ++ (encodeURIComponent s ++ ("&body=" ++
      (encodeURIComponent b ++
        (if cc ≠ "" then "&cc=" ++ encodeURIComponent cc else "")))), ?_⟩
    simp only [createMailtoLink]
    simp [String.append_assoc]
  · rintro ⟨cv, hcv⟩
    intro hcc
    simp only [createMailtoLink, if_neg (show ¬ cc ≠ "" from fun hx => hx hcc),
      String.append_empty] at hcv
    have hlen := congrArg String.length hcv
    simp only [String.length_append] at hlen
    have h4 : ("&cc=" : String).length = 4 := rfl
    omega
  · intro hcc
    refine ⟨encodeURIComponent cc, ?_⟩
    simp only [createMailtoLink, if_pos hcc]
  · intro hcc
    refine ⟨?_, decodeURIComponent_encodeURIComponent cc⟩
    simp only [createMailtoLink, if_pos hcc]

/-- Witness for C6 at concrete recipient, subject, body and cc values. -/
theorem createMailtoLink_spec_witness :
    (∃ rest : String, createMailtoLink "test@example.com" "Abhol zeiten äß"
        "Zeile1\nZeile2" "p@x.de" = "mailto:" ++ "test@example.com" ++ rest)
    ∧ ((∃ cv : String, createMailtoLink "test@example.com" "Abhol zeiten äß"
        "Zeile1\nZeile2" "p@x.de" =
        "mailto:" ++ "test@example.com" ++ "?subject=" ++
          encodeURIComponent "Abhol zeiten äß" ++ "&body=" ++
          encodeURIComponent "Zeile1\nZeile2" ++ ("&cc=" ++ cv)) ↔
        ("p@x.de" : String) ≠ "")
    ∧ decodeURIComponent (encodeURIComponent "Abhol zeiten äß") =
        some "Abhol zeiten äß"
    ∧ decodeURIComponent (encodeURIComponent "Zeile1\nZeile2") =
        some "Zeile1\nZeile2"
    ∧ (("p@x.de" : String) ≠ "" ∧
        decodeURIComponent (encodeURIComponent "p@x.de") = some "p@x.de") :=
  ⟨(createMailtoLink_spec "test@example.com" "Abhol zeiten äß" "Zeile1\nZeile2"
      "p@x.de").1,
   (createMailtoLink_spec "test@example.com" "Abhol zeiten äß" "Zeile1\nZeile2"
      "p@x.de").2.1,
   (createMailtoLink_spec "test@example.com" "Abhol zeiten äß" "Zeile1\nZeile2"
      "p@x.de").2.2.1,
   (createMailtoLink_spec "test@example.com" "Abhol zeiten äß" "Zeile1\nZeile2"
      "p@x.de").2.2.2.1,
   by decide,
   ((createMailtoLink_spec "test@example.com" "Abhol zeiten äß" "Zeile1\nZeile2"
      "p@x.de").2.2.2.2 (by decide)).2⟩

/-- C7 counterexample: the recipient is interpolated without encoding — a
recipient containing a space yields a URI with a raw, unencoded space, so not
every dynamic segment is percent-encoded. -/
theorem createMailtoLink_recipient_unencoded_counterexample :
    createMailtoLink "a b@x.de" "s" "t" "" = "mailto:a b@x.de?subject=s&body=t"
    ∧ ' ' ∈ (createMailtoLink "a b@x.de" "s" "t" "").data := by
  exact ⟨by decide, by decide⟩

theorem encChar_classes (c : Char) :
    ∀ c' ∈ encChar c,
      isUnreserved c' = true ∨ c' = '%' ∨ ∃ n : ℕ, n < 16 ∧ c' = hexDigit n := by
  intro c' hc'
  unfold encChar at hc'
  split_ifs at hc' with hu
  · simp only [List.mem_singleton] at hc'
    subst hc'
    exact Or.inl hu
  · rw [List.mem_flatten] at hc'
    obtain ⟨l, hl, hcl⟩ := hc'
    rw [List.mem_map] at hl
    obtain ⟨byte, hbyte, rfl⟩ := hl
    have hb : byte < 256 := utf8Bytes_lt (char_toNat_lt c) byte hbyte
    simp only [percentByte, List.mem_cons, List.not_mem_nil, or_false] at hcl
    rcases hcl with rfl | rfl | rfl
    · exact Or.inr (Or.inl rfl)
    · exact Or.inr (Or.inr ⟨byte / 16, by omega, rfl⟩)
    · exact Or.inr (Or.inr ⟨byte % 16, by omega, rfl⟩)

theorem hexDigit_ne {n : ℕ} (h : n < 16) :
    hexDigit n ≠ ' ' ∧ hexDigit n ≠ '\n' ∧ hexDigit n ≠ '\r' ∧ hexDigit n ≠ '&' ∧
      hexDigit n ≠ '=' ∧ hexDigit n ≠ '?' := by
  interval_cases n <;> exact ⟨by decide, by decide, by decide, by decide, by decide,
    by decide⟩

/-- C7 amended: the link has the exact form
`mailto:{recipient}?subject={s}&body={b}[&cc={c}]` with subject, body and the
optional cc percent-encoded — encoded segments contain no raw space, line
break, `&`, `=` or `?` — but the recipient is interpolated verbatim, without
any encoding. -/
theorem createMailtoLink_encoding (r s b cc : String) :
    createMailtoLink r s b cc =
      "mailto:" ++ r ++ "?subject=" ++ encodeURIComponent s ++ "&body=" ++
        encodeURIComponent b ++
        (if cc ≠ "" then "&cc=" ++ encodeURIComponent cc else "")
    ∧ (∀ x : String, ∀ c' ∈ (encodeURIComponent x).data,
        c' ≠ ' ' ∧ c' ≠ '\n' ∧ c' ≠ '\r' ∧ c' ≠ '&' ∧ c' ≠ '=' ∧ c' ≠ '?') := by
  constructor
  · rfl
  · intro x c' hc'
    have hmem : c' ∈ (x.data.map encChar).flatten := hc'
    rw [List.mem_flatten] at hmem
    obtain ⟨l, hl, hcl⟩ := hmem
    rw [List.mem_map] at hl
    obtain ⟨c, hc, rfl⟩ := hl
    rcases encChar_classes c c' hcl with hu | rfl | ⟨n, hn, rfl⟩
    · refine ⟨?_, ?_, ?_, ?_, ?_, ?_⟩ <;>
        (intro he; subst he; exact absurd hu (by decide))
    · exact ⟨by decide, by decide, by decide, by decide, by decide, by decide⟩
    · exact hexDigit_ne hn

/-- Witness for the amended C7: a recipient with a space appears verbatim,
while the encoded subject contains a '%' escape and no forbidden character. -/
theorem createMailtoLink_encoding_witness :
    createMailtoLink "a b@x.de" "Früh 7:30" "Zeile1\nZeile2" "" =
      "mailto:" ++ "a b@x.de" ++ "?subject=" ++ encodeURIComponent "Früh 7:30" ++
        "&body=" ++ encodeURIComponent "Zeile1\nZeile2" ++
        (if ("" : String) ≠ "" then "&cc=" ++ encodeURIComponent "" else "")
    ∧ ('%' ∈ (encodeURIComponent "Früh 7:30").data
      ∧ ('%' ≠ ' ' ∧ '%' ≠ '\n' ∧ '%' ≠ '\r' ∧ '%' ≠ '&' ∧ '%' ≠ '=' ∧ '%' ≠ '?')) :=
  ⟨(createMailtoLink_encoding "a b@x.de" "Früh 7:30" "Zeile1\nZeile2" "").1,
   by decide,
   (createMailtoLink_encoding "a b@x.de" "Früh 7:30" "Zeile1\nZeile2" "").2
     "Früh 7:30" '%' (by decide)⟩

/-- C10: `getCalendarWeek`, `formatDate` and `getWeekInfo` leave the caller's
date argument unchanged — each works on a copy (`const d = new Date(date)`),
mutating only the copy during the shift-to-Thursday step, so the threaded
argument slot returned by the call-models equals the input, and the computed
results agree with the pure functions. -/
theorem calendar_frame (date : Date) :
    (getCalendarWeekCall date).2 = date
    ∧ (getCalendarWeekCall date).1 = getCalendarWeek date
    ∧ (formatDateCall date).2 = date
    ∧ (formatDateCall date).1 = formatDate date
    ∧ (getWeekInfoCall date).2 = date
    ∧ (getWeekInfoCall date).1 = getWeekInfo date :=
  ⟨rfl, rfl, rfl, rfl, rfl, rfl⟩

end BEB
